import Mathlib

/-!
Verification development for the sculpter surface-nets extraction pipeline.

The Rust sources are shallowly embedded:
* `CpuData.DensityFieldSize` embeds the u32-based grid-geometry type of
  `src/cpu_data.rs` (u32 arithmetic is `Nat` arithmetic reduced modulo 2^32 at
  every binary operation, matching release-mode wrapping semantics);
* `LibCrate.DensityFieldSize` embeds the usize-based type of `src/lib.rs`
  (modulo 2^64);
* `queue_surface_nets_compute` and `surfaceNetsNodeRun` embed the two compute
  orchestrators (`src/lib.rs` and `src/node.rs`) as the sequence of compute
  passes they record, as a function of which cached pipelines are ready;
* `build_mesh_from_readback`, `assembleMesh` and `compute_flat_normals` embed
  `src/mesh.rs`; f32 scalars are modelled as exact rationals and the f32
  `normalize_or_zero` as an abstract parameter `norm : Vec3 → Vec3`, since the
  claims about this code are structural and do not depend on rounding;
* `SurfaceNetsBuffers.new` and `prepare_surface_nets_buffers` embed
  `src/buffers.rs`;
* the stream-compaction kernels live in WGSL shader files that are not part of
  the repository snapshot (only their pipeline declarations and bind-group
  layouts are), so `scanExclusive`, `compactionCount` and `compactWritesGo`
  are modelled from the spec, as marked on each definition.
-/

/-- Modulus of u32 arithmetic. -/
def M32 : Nat := 4294967296

/-- Modulus of usize (64-bit) arithmetic. -/
def M64 : Nat := 18446744073709551616

namespace CpuData

/-- Embedding of `DensityFieldSize(pub UVec3)` from `src/cpu_data.rs`: three
u32 grid dimensions. Components are Nat values below 2^32; every arithmetic
operation of the original is reduced modulo 2^32. -/
structure DensityFieldSize where
  x : Nat
  y : Nat
  z : Nat
deriving DecidableEq, Repr

/-- Embedding of `DensityFieldSize::density_count` (u32): `self.x * self.y * self.z`. -/
def density_count (d : DensityFieldSize) : Nat :=
  d.x * d.y % M32 * d.z % M32

/-- Embedding of `DensityFieldSize::index` (u32):
`z * self.y * self.x + y * self.x + x`, every binary operation wrapping. -/
def index (d : DensityFieldSize) (x y z : Nat) : Nat :=
  ((z * d.y % M32 * d.x % M32 + y * d.x % M32) % M32 + x) % M32

/-- Embedding of `DensityFieldSize::cell_count` (u32):
`(x.saturating_sub(1)) * (y.saturating_sub(1)) * (z.saturating_sub(1))`;
Nat subtraction is saturating. -/
def cell_count (d : DensityFieldSize) : Nat :=
  (d.x - 1) * (d.y - 1) % M32 * (d.z - 1) % M32

end CpuData

namespace LibCrate

/-- Embedding of the usize-based `DensityFieldSize` from `src/lib.rs`. -/
structure DensityFieldSize where
  x : Nat
  y : Nat
  z : Nat
deriving DecidableEq, Repr

/-- Embedding of the usize `density_count` from `src/lib.rs`. -/
def density_count (d : DensityFieldSize) : Nat :=
  d.x * d.y % M64 * d.z % M64

/-- Embedding of the usize `index` from `src/lib.rs`. -/
def index (d : DensityFieldSize) (x y z : Nat) : Nat :=
  ((z * d.y % M64 * d.x % M64 + y * d.x % M64) % M64 + x) % M64

/-- Embedding of the usize `cell_count` from `src/lib.rs`. -/
def cell_count (d : DensityFieldSize) : Nat :=
  (d.x - 1) * (d.y - 1) % M64 * (d.z - 1) % M64

/-- Embedding of `impl From<UVec3> for DensityFieldSize` from `src/lib.rs`:
each u32 component is widened to usize. -/
def ofCpu (d : CpuData.DensityFieldSize) : DensityFieldSize :=
  ⟨d.x, d.y, d.z⟩

end LibCrate

/-- The six compute stages of the surface-nets pipeline, as named by the
shader entry points in `src/pipeline.rs`. -/
inductive Stage where
  | generateVertices
  | scanVertices
  | compactVertices
  | generateFaces
  | scanFaces
  | compactFaces
deriving DecidableEq, Repr

/-- Readiness of the five cached compute pipelines
(`SurfaceNetsPipelines` in `src/pipeline.rs`); the single scan pipeline is
shared by the vertex and the face compaction. -/
structure PipelineReadiness where
  generate_vertices_ready : Bool
  scan_ready : Bool
  compact_vertices_ready : Bool
  generate_faces_ready : Bool
  compact_faces_ready : Bool
deriving DecidableEq, Repr

/-- Embedding of `queue_surface_nets_compute` from `src/lib.rs` as the list of
compute passes it records for one buffer set: if any of the five pipelines is
missing it bails out (`continue`), otherwise it begins exactly four passes, in
source order `generate_vertices`, `compact_vertices`, `generate_faces`,
`compact_faces`; the fetched scan pipeline is never set on a pass. -/
def queue_surface_nets_compute (r : PipelineReadiness) : List Stage :=
  if r.generate_vertices_ready && r.scan_ready && r.compact_vertices_ready
      && r.generate_faces_ready && r.compact_faces_ready then
    [Stage.generateVertices, Stage.compactVertices,
     Stage.generateFaces, Stage.compactFaces]
  else
    []

/-- Embedding of `SurfaceNetsNode::run` from `src/node.rs` as the list of
dispatches it records for one entity: each of the six stage slots dispatches
when its pipeline is in the cache, in source order. -/
def surfaceNetsNodeRun (r : PipelineReadiness) : List Stage :=
  (if r.generate_vertices_ready then [Stage.generateVertices] else [])
    ++ (if r.scan_ready then [Stage.scanVertices] else [])
    ++ (if r.compact_vertices_ready then [Stage.compactVertices] else [])
    ++ (if r.generate_faces_ready then [Stage.generateFaces] else [])
    ++ (if r.scan_ready then [Stage.scanFaces] else [])
    ++ (if r.compact_faces_ready then [Stage.compactFaces] else [])

/-- The six-stage order required by the spec's data-flow description:
vertex generation, vertex scan, vertex compaction, face generation, face scan,
face compaction. Written from the spec for comparison with the code. -/
def specStageOrder : List Stage :=
  [Stage.generateVertices, Stage.scanVertices, Stage.compactVertices,
   Stage.generateFaces, Stage.scanFaces, Stage.compactFaces]

/-- All five cached pipelines ready. -/
def allReady : PipelineReadiness :=
  ⟨true, true, true, true, true⟩

/-- Exact 3-vectors; stands for the f32 `Vec3` of the original, with scalars
modelled as rationals. -/
@[ext]
structure Vec3 where
  x : ℚ
  y : ℚ
  z : ℚ
deriving DecidableEq, Repr

/-- Componentwise vector addition. -/
def Vec3.add (a b : Vec3) : Vec3 :=
  ⟨a.x + b.x, a.y + b.y, a.z + b.z⟩

/-- Componentwise vector subtraction. -/
def Vec3.sub (a b : Vec3) : Vec3 :=
  ⟨a.x - b.x, a.y - b.y, a.z - b.z⟩

/-- Componentwise vector multiplication (glam `Vec3 * Vec3`). -/
def Vec3.mul (a b : Vec3) : Vec3 :=
  ⟨a.x * b.x, a.y * b.y, a.z * b.z⟩

/-- Componentwise vector division (glam `Vec3 / Vec3`). -/
def Vec3.div (a b : Vec3) : Vec3 :=
  ⟨a.x / b.x, a.y / b.y, a.z / b.z⟩

/-- The zero vector. -/
def Vec3.zero : Vec3 :=
  ⟨0, 0, 0⟩

/-- The cross product, as in glam. -/
def Vec3.cross (a b : Vec3) : Vec3 :=
  ⟨a.y * b.z - a.z * b.y, a.z * b.x - a.x * b.z, a.x * b.y - a.y * b.x⟩

/-- Division of a vector by a natural scalar (the per-vertex averaging step). -/
def Vec3.divNat (v : Vec3) (n : Nat) : Vec3 :=
  ⟨v.x / n, v.y / n, v.z / n⟩

/-- Scaling of a vector by a natural number. -/
def Vec3.smulNat (n : Nat) (v : Vec3) : Vec3 :=
  ⟨n * v.x, n * v.y, n * v.z⟩

/-- Sum of a list of vectors. -/
def vsum (l : List Vec3) : Vec3 :=
  l.foldr Vec3.add Vec3.zero

/-- Embedding of `DensityFieldSize::as_vec3` used by `src/mesh.rs`. -/
def CpuData.DensityFieldSize.as_vec3 (d : CpuData.DensityFieldSize) : Vec3 :=
  ⟨(d.x : ℚ), (d.y : ℚ), (d.z : ℚ)⟩

/-- Embedding of `ReadbackBuffers` from `_src/readback.rs`: the four readback
values, each independently present or absent. -/
structure ReadbackBuffers where
  vertex_count : Option Nat
  vertices : Option (List ℚ)
  face_count : Option Nat
  faces : Option (List Nat)
deriving DecidableEq, Repr

/-- The assembled mesh: world-space positions, per-vertex normals and the
triangle index list (`src/mesh.rs`). -/
structure MeshOut where
  positions : List Vec3
  normals : List Vec3
  indices : List Nat
deriving DecidableEq, Repr

/-- Complete 3-chunks of an index list, as `indices.chunks_exact(3)` in
`compute_flat_normals` of `src/mesh.rs`; a trailing chunk of fewer than three
entries is ignored. -/
def chunks3 : List Nat → List (Nat × Nat × Nat)
  | a :: b :: c :: rest => (a, b, c) :: chunks3 rest
  | _ => []

/-- How many of the three corners of triangle `t` are the vertex `k`. -/
def occCount (k : Nat) (t : Nat × Nat × Nat) : Nat :=
  (if k = t.1 then 1 else 0) + (if k = t.2.1 then 1 else 0)
    + (if k = t.2.2 then 1 else 0)

/-- The face normal of one triangle as computed in `src/mesh.rs`:
`norm (cross (v1 - v0) (v2 - v0))`, with `norm` standing for the f32
`normalize_or_zero` and positions fetched from the position array. -/
def triNormal (norm : Vec3 → Vec3) (pos : List Vec3) (t : Nat × Nat × Nat) : Vec3 :=
  Vec3.cross (Vec3.sub (pos.getD t.2.1 Vec3.zero) (pos.getD t.1 Vec3.zero))
      (Vec3.sub (pos.getD t.2.2 Vec3.zero) (pos.getD t.1 Vec3.zero))
    |> norm

/-- Pointwise additive update of the normal accumulator at one slot
(`normals[idx] += normal` in `src/mesh.rs`). -/
def addAt (f : Nat → Vec3) (i : Nat) (v : Vec3) : Nat → Vec3 :=
  fun k => if k = i then Vec3.add (f k) v else f k

/-- Pointwise increment of the contribution counter at one slot
(`normal_counts[idx] += 1` in `src/mesh.rs`). -/
def incAt (c : Nat → Nat) (i : Nat) : Nat → Nat :=
  fun k => if k = i then c k + 1 else c k

/-- Embedding of the accumulation loop of `compute_flat_normals` in
`src/mesh.rs`: for each complete triangle whose three indices are all in
bounds, add its face normal to each of its three vertices and bump each
vertex's contribution count; out-of-bounds triangles are skipped
(`continue`). The two mutable arrays are modelled as functions. -/
def accumFlat (norm : Vec3 → Vec3) (pos : List Vec3) :
    List (Nat × Nat × Nat) → (Nat → Vec3) → (Nat → Nat) →
    (Nat → Vec3) × (Nat → Nat)
  | [], ns, cs => (ns, cs)
  | t :: ts, ns, cs =>
    if t.1 < pos.length ∧ t.2.1 < pos.length ∧ t.2.2 < pos.length then
      accumFlat norm pos ts
        (addAt (addAt (addAt ns t.1 (triNormal norm pos t)) t.2.1
          (triNormal norm pos t)) t.2.2 (triNormal norm pos t))
        (incAt (incAt (incAt cs t.1) t.2.1) t.2.2)
    else
      accumFlat norm pos ts ns cs

/-- Embedding of `compute_flat_normals` from `src/mesh.rs`: accumulate face
normals and counts over the complete 3-chunks of the index list, then per
vertex divide by the count and renormalize when the count is positive, and
otherwise leave the (still zero) accumulated value. -/
def compute_flat_normals (norm : Vec3 → Vec3) (pos : List Vec3)
    (indices : List Nat) : List Vec3 :=
  let r := accumFlat norm pos (chunks3 indices) (fun _ => Vec3.zero) (fun _ => 0)
  (List.range pos.length).map fun i =>
    if 0 < r.2 i then norm (Vec3.divNat (r.1 i) (r.2 i)) else r.1 i

/-- specFlatNormals follows the spec's words, for comparison with
`compute_flat_normals`: for each triangle compute
`normalize(cross(v1 - v0, v2 - v0))`, accumulate into each of its three
vertices, then per vertex divide by the contribution count and renormalize;
a vertex contributing to zero triangles gets the zero vector. -/
def specFlatNormals (norm : Vec3 → Vec3) (pos : List Vec3)
    (indices : List Nat) : List Vec3 :=
  let ts := chunks3 indices
  (List.range pos.length).map fun i =>
    let c := (ts.map (occCount i)).sum
    if c = 0 then Vec3.zero
    else
      norm (Vec3.divNat
        (vsum (ts.map fun t => Vec3.smulNat (occCount i t) (triNormal norm pos t)))
        c)

/-- The world-to-grid scale of `src/mesh.rs`: `**mesh_size / dimensions.as_vec3()`. -/
def scaleOf (mesh_size : Vec3) (dims : CpuData.DensityFieldSize) : Vec3 :=
  Vec3.div mesh_size dims.as_vec3

/-- World-space position of readback vertex `i` (`src/mesh.rs`): the three
floats at `3*i` scaled componentwise. -/
def posAt (mesh_size : Vec3) (dims : CpuData.DensityFieldSize)
    (vs : List ℚ) (i : Nat) : Vec3 :=
  Vec3.mul ⟨vs.getD (3 * i) 0, vs.getD (3 * i + 1) 0, vs.getD (3 * i + 2) 0⟩
    (scaleOf mesh_size dims)

/-- Embedding of the vertex loop of `build_mesh_from_readback`: for each
`i < vertex_count`, a position is pushed only when its three floats fit in the
readback array (`base + 2 < vertices.len()`). -/
def worldPositionsOf (mesh_size : Vec3) (dims : CpuData.DensityFieldSize)
    (vc : Nat) (vs : List ℚ) : List Vec3 :=
  (List.range vc).filterMap fun i =>
    if 3 * i + 2 < vs.length then some (posAt mesh_size dims vs i) else none

/-- The six triangle indices a quad face contributes (`src/mesh.rs`): quad
`(v0, v1, v2, v3)` becomes triangles `(v0, v1, v2)` and `(v0, v2, v3)`. -/
def quadSplit (fs : List Nat) (i : Nat) : List Nat :=
  [fs.getD (4 * i) 0, fs.getD (4 * i + 1) 0, fs.getD (4 * i + 2) 0,
   fs.getD (4 * i) 0, fs.getD (4 * i + 2) 0, fs.getD (4 * i + 3) 0]

/-- Embedding of the face loop of `build_mesh_from_readback`: for each
`i < face_count`, six triangle indices are pushed only when the quad's four
indices fit in the readback array (`base + 3 < faces.len()`). -/
def triangleIndicesFromFaces (fc : Nat) (fs : List Nat) : List Nat :=
  ((List.range fc).filterMap fun i =>
    if 4 * i + 3 < fs.length then some (quadSplit fs i) else none).flatten

/-- The mesh assembled by `build_mesh_from_readback` once all four readback
values are present. -/
def assembleMesh (norm : Vec3 → Vec3) (mesh_size : Vec3)
    (dims : CpuData.DensityFieldSize) (vc : Nat) (vs : List ℚ)
    (fc : Nat) (fs : List Nat) : MeshOut :=
  let positions := worldPositionsOf mesh_size dims vc vs
  let indices := triangleIndicesFromFaces fc fs
  { positions := positions
    indices := indices
    normals := compute_flat_normals norm positions indices }

/-- Embedding of `build_mesh_from_readback` from `src/mesh.rs` for one entity:
if any of the four readback values is absent the entity is skipped
(`continue`, no mesh); otherwise the mesh is assembled. -/
def build_mesh_from_readback (norm : Vec3 → Vec3) (mesh_size : Vec3)
    (dims : CpuData.DensityFieldSize) (data : ReadbackBuffers) : Option MeshOut :=
  match data.vertex_count, data.vertices, data.face_count, data.faces with
  | some vc, some vs, some fc, some fs =>
    some (assembleMesh norm mesh_size dims vc vs fc fs)
  | _, _, _, _ => none

/-- Embedding of `SurfaceNetsBuffers` from `src/buffers.rs`: the density field
contents, the run dimensions, and the element count of every working array
allocated for a run. -/
structure SurfaceNetsBuffers where
  density_field : List ℚ
  dimensions : CpuData.DensityFieldSize
  vertices_len : Nat
  vertex_valid_len : Nat
  vertex_indices_len : Nat
  vertex_count_len : Nat
  compacted_vertices_len : Nat
  faces_len : Nat
  face_valid_len : Nat
  face_indices_len : Nat
  face_count_len : Nat
  compacted_faces_len : Nat
deriving DecidableEq, Repr

/-- Embedding of `SurfaceNetsBuffers::new` from `src/buffers.rs`: sizes derive
from `cell_count` and `max_faces = cell_count * 3` in u32 arithmetic; the
density buffer holds the submitted field unchanged. No validation occurs. -/
def SurfaceNetsBuffers.new (density : List ℚ)
    (dims : CpuData.DensityFieldSize) : SurfaceNetsBuffers :=
  let cell := CpuData.cell_count dims
  let max_faces := cell * 3 % M32
  { density_field := density
    dimensions := dims
    vertices_len := cell * 3 % M32
    vertex_valid_len := cell
    vertex_indices_len := cell
    vertex_count_len := 1
    compacted_vertices_len := cell * 3 % M32
    faces_len := max_faces * 4 % M32
    face_valid_len := max_faces
    face_indices_len := max_faces
    face_count_len := 1
    compacted_faces_len := max_faces * 4 % M32 }

/-- Embedding of `prepare_surface_nets_buffers` from `src/buffers.rs`: for
every entity that has a density field and no buffers yet, a full buffer set is
created from the shared dimensions; no input is rejected. -/
def prepare_surface_nets_buffers (entities : List (List ℚ))
    (dims : CpuData.DensityFieldSize) : List SurfaceNetsBuffers :=
  entities.map fun d => SurfaceNetsBuffers.new d dims

/-- Modelled from the spec: the WGSL scan shader
(`shaders/surface_nets/prefix_sum.wgsl`) is not part of the repository
snapshot. Helper carrying the running count: the entry for position `i` is the
number of valid entries strictly before `i`. -/
def scanExclusiveGo (acc : Nat) : List Bool → List Nat
  | [] => []
  | v :: vs => acc :: scanExclusiveGo (acc + if v then 1 else 0) vs

/-- Modelled from the spec: the exclusive scan of a validity array, the index
array of the stream-compaction stage. -/
def scanExclusive (V : List Bool) : List Nat :=
  scanExclusiveGo 0 V

/-- Modelled from the spec: the count scalar of the stream-compaction stage,
`index[N-1] + validity[N-1]`, or `0` when `N == 0`. -/
def compactionCount (V : List Bool) : Nat :=
  if V.length = 0 then 0
  else (scanExclusive V).getD (V.length - 1) 0
    + (if V.getD (V.length - 1) false then 1 else 0)

/-- Modelled from the spec: the compaction write pass — for every `i` with
`validity[i]` true, write `source[i]` to `dense[index[i]]`, entries with
`validity[i]` false are skipped. The dense output is modelled as a partial map
from slot to written element; `acc` is the running exclusive-scan value, which
is exactly `index[i]` at position `i`. -/
def compactWritesGo {α : Type} (acc : Nat) :
    List Bool → List α → (Nat → Option α) → Nat → Option α
  | [], _, f => f
  | _ :: _, [], f => f
  | v :: vs, s :: ss, f =>
    compactWritesGo (acc + if v then 1 else 0) vs ss
      (if v then (fun k => if k = acc then some s else f k) else f)

/-- Modelled from the spec: the dense compacted array of length `count`, read
off the slots written by the compaction pass; unwritten slots are `none`. -/
def compactDense {α : Type} (V : List Bool) (src : List α) : List (Option α) :=
  (List.range (compactionCount V)).map
    (compactWritesGo 0 V src (fun _ => none))

/-- The sub-sequence of source elements at positions where the validity flag
is true, in original order — the invariant the compacted array must equal. -/
def validSubseq {α : Type} (V : List Bool) (src : List α) : List α :=
  ((V.zip src).filter fun p => p.1).map fun p => p.2


theorem Vec3.zero_add' (v : Vec3) : Vec3.add Vec3.zero v = v := by
  ext <;> simp [Vec3.add, Vec3.zero]

theorem Vec3.add_zero' (v : Vec3) : Vec3.add v Vec3.zero = v := by
  ext <;> simp [Vec3.add, Vec3.zero]

theorem Vec3.smulNat_zero (v : Vec3) : Vec3.smulNat 0 v = Vec3.zero := by
  ext <;> simp [Vec3.smulNat, Vec3.zero]

theorem vsum_cons (a : Vec3) (l : List Vec3) :
    vsum (a :: l) = Vec3.add a (vsum l) := rfl

/-- Every component of a complete 3-chunk is an element of the index list. -/
theorem chunks3_mem : ∀ (l : List Nat) (t : Nat × Nat × Nat), t ∈ chunks3 l →
    t.1 ∈ l ∧ t.2.1 ∈ l ∧ t.2.2 ∈ l
  | [], t, ht => by simp [chunks3] at ht
  | [a], t, ht => by simp [chunks3] at ht
  | [a, b], t, ht => by simp [chunks3] at ht
  | a :: b :: c :: rest, t, ht => by
    simp only [chunks3, List.mem_cons] at ht
    rcases ht with rfl | ht
    · simp
    · have ih := chunks3_mem rest t ht
      simp only [List.mem_cons]
      exact ⟨Or.inr (Or.inr (Or.inr ih.1)), Or.inr (Or.inr (Or.inr ih.2.1)),
        Or.inr (Or.inr (Or.inr ih.2.2))⟩

/-- A filterMap with an if-then-some-else-none body is a filter followed by a map. -/
theorem filterMap_ite {β : Type} (l : List Nat) (p : Nat → Prop) [DecidablePred p]
    (g : Nat → β) :
    (l.filterMap fun i => if p i then some (g i) else none)
      = (l.filter fun i => decide (p i)).map g := by
  induction l with
  | nil => rfl
  | cons a l ih => by_cases h : p a <;> simp [h, ih]

/-- The face loop of `build_mesh_from_readback` as a filter followed by a flatMap. -/
theorem triangleIndicesFromFaces_eq (fc : Nat) (fs : List Nat) :
    triangleIndicesFromFaces fc fs
      = ((List.range fc).filter fun i => decide (4 * i + 3 < fs.length)).flatMap
          (quadSplit fs) := by
  rw [triangleIndicesFromFaces, filterMap_ite (List.range fc)
    (fun i => 4 * i + 3 < fs.length) (quadSplit fs)]
  simp [List.flatMap_def]

/-- The vertex loop of `build_mesh_from_readback` as a filter followed by a map. -/
theorem worldPositionsOf_eq (mesh_size : Vec3) (dims : CpuData.DensityFieldSize)
    (vc : Nat) (vs : List ℚ) :
    worldPositionsOf mesh_size dims vc vs
      = ((List.range vc).filter fun i => decide (3 * i + 2 < vs.length)).map
          (posAt mesh_size dims vs) := by
  rw [worldPositionsOf, filterMap_ite (List.range vc)
    (fun i => 3 * i + 2 < vs.length) (posAt mesh_size dims vs)]

/-- Claim C1: the spec's data-flow order requires six dispatches — vertex
generation, vertex prefix-sum, vertex compaction, face generation, face
prefix-sum, face compaction. The `queue_surface_nets_compute` orchestrator of
`src/lib.rs`, even with all five pipelines ready, records only four passes and
never dispatches the prefix-sum pipeline it fetched, while `SurfaceNetsNode`
of `src/node.rs` records exactly the six stages in the spec's order. -/
theorem claim1_queue_skips_scan_dispatch :
    queue_surface_nets_compute allReady =
      [Stage.generateVertices, Stage.compactVertices,
       Stage.generateFaces, Stage.compactFaces] ∧
    queue_surface_nets_compute allReady ≠ specStageOrder ∧
    surfaceNetsNodeRun allReady = specStageOrder :=
  ⟨rfl, by decide, rfl⟩

/-- Claim C3, amended: no input validation is performed — for every submitted
density field a full buffer set (Run State) sized from the configured grid
dimensions is created, even when the density-field length mismatches the
dimensions; nothing is rejected before the pipeline stages run. -/
theorem claim3_no_validation (entities : List (List ℚ))
    (dims : CpuData.DensityFieldSize) :
    (prepare_surface_nets_buffers entities dims).length = entities.length ∧
    prepare_surface_nets_buffers entities dims
      = entities.map (fun d => SurfaceNetsBuffers.new d dims) ∧
    ∀ d, (SurfaceNetsBuffers.new d dims).density_field = d ∧
      (SurfaceNetsBuffers.new d dims).vertex_valid_len = CpuData.cell_count dims ∧
      (SurfaceNetsBuffers.new d dims).vertices_len
        = CpuData.cell_count dims * 3 % M32 :=
  ⟨by simp [prepare_surface_nets_buffers], rfl, fun d => ⟨rfl, rfl, rfl⟩⟩

/-- Claim C3 fails on the code: a density field of length 5 submitted with
dimensions (10, 10, 10) — whose density count is 1000 ≠ 5 — is not rejected:
a buffer set is created for it, with working arrays sized from the
dimensions. -/
theorem claim3_counterexample :
    (prepare_surface_nets_buffers [[1, 2, 3, 4, 5]] ⟨10, 10, 10⟩).length = 1 ∧
    (SurfaceNetsBuffers.new [1, 2, 3, 4, 5] ⟨10, 10, 10⟩).vertex_valid_len = 729 ∧
    CpuData.density_count ⟨10, 10, 10⟩ = 1000 ∧
    [(1 : ℚ), 2, 3, 4, 5].length ≠ 1000 := by
  refine ⟨rfl, by decide, by decide, by decide⟩

/-- Claim C5: a mesh is built only when all four readback values are present;
if `build_mesh_from_readback` produces a mesh, then the vertex count, the
vertex array, the face count and the face array were all present. -/
theorem claim5_mesh_needs_all_four (norm : Vec3 → Vec3) (mesh_size : Vec3)
    (dims : CpuData.DensityFieldSize) (data : ReadbackBuffers)
    (h : (build_mesh_from_readback norm mesh_size dims data).isSome = true) :
    data.vertex_count.isSome = true ∧ data.vertices.isSome = true ∧
    data.face_count.isSome = true ∧ data.faces.isSome = true := by
  rcases data with ⟨vc, vs, fc, fs⟩
  cases vc <;> cases vs <;> cases fc <;> cases fs <;>
    simp_all [build_mesh_from_readback]

/-- Witness for claim C5 at a concrete complete readback. -/
theorem claim5_witness :
    (ReadbackBuffers.mk (some 0) (some []) (some 0) (some [])).vertex_count.isSome = true ∧
    (ReadbackBuffers.mk (some 0) (some []) (some 0) (some [])).vertices.isSome = true ∧
    (ReadbackBuffers.mk (some 0) (some []) (some 0) (some [])).face_count.isSome = true ∧
    (ReadbackBuffers.mk (some 0) (some []) (some 0) (some [])).faces.isSome = true :=
  claim5_mesh_needs_all_four id ⟨1, 1, 1⟩ ⟨1, 1, 1⟩
    (ReadbackBuffers.mk (some 0) (some []) (some 0) (some [])) (by decide)

/-- Claim C7: under the readback contract (the face array holds at least
`4 * face_count` entries), the triangle index list is exactly the
concatenation, in face order, of the two triangles `(v0, v1, v2)` and
`(v0, v2, v3)` of every quad, and it has `6 * face_count` entries. -/
theorem claim7_quad_split (fc : Nat) (fs : List Nat) (h : 4 * fc ≤ fs.length) :
    triangleIndicesFromFaces fc fs = (List.range fc).flatMap (quadSplit fs) ∧
    (triangleIndicesFromFaces fc fs).length = 6 * fc := by
  have hall : ∀ i ∈ List.range fc,
      (fun i => decide (4 * i + 3 < fs.length)) i = true := by
    intro i hi
    simp only [List.mem_range] at hi
    simp only [decide_eq_true_eq]
    omega
  have h1 : triangleIndicesFromFaces fc fs
      = (List.range fc).flatMap (quadSplit fs) := by
    rw [triangleIndicesFromFaces_eq, List.filter_eq_self.mpr hall]
  refine ⟨h1, ?_⟩
  rw [h1, List.length_flatMap]
  have h2 : (List.range fc).map (List.length ∘ quadSplit fs)
      = (List.range fc).map fun _ => 6 :=
    List.map_congr_left (by intro a _; simp [quadSplit])
  rw [h2]
  simp
  omega

/-- Witness for claim C7 at one quad. -/
theorem claim7_witness :
    triangleIndicesFromFaces 1 [5, 6, 7, 8]
      = (List.range 1).flatMap (quadSplit [5, 6, 7, 8]) ∧
    (triangleIndicesFromFaces 1 [5, 6, 7, 8]).length = 6 * 1 :=
  claim7_quad_split 1 [5, 6, 7, 8] (by decide)

/-- The three sequential accumulator writes of one triangle equal one
pointwise addition weighted by the vertex's occurrence count in the triangle. -/
theorem addAt_three (ns : Nat → Vec3) (i0 i1 i2 : Nat) (n : Vec3) :
    addAt (addAt (addAt ns i0 n) i1 n) i2 n
      = fun k => Vec3.add (ns k) (Vec3.smulNat (occCount k (i0, i1, i2)) n) := by
  funext k
  simp only [addAt, occCount]
  split_ifs <;> (ext <;> simp [Vec3.add, Vec3.smulNat] <;> ring)

/-- The three sequential counter increments of one triangle equal one addition
of the vertex's occurrence count in the triangle. -/
theorem incAt_three (cs : Nat → Nat) (i0 i1 i2 : Nat) :
    incAt (incAt (incAt cs i0) i1) i2
      = fun k => cs k + occCount k (i0, i1, i2) := by
  funext k
  simp only [incAt, occCount]
  split_ifs <;> omega

/-- The accumulation loop of `compute_flat_normals`, when every triangle index
is in bounds, computes at every slot the weighted sum of the triangle normals
and the total occurrence count. -/
theorem accumFlat_spec (norm : Vec3 → Vec3) (pos : List Vec3)
    (ts : List (Nat × Nat × Nat)) :
    ∀ (ns : Nat → Vec3) (cs : Nat → Nat),
    (∀ t ∈ ts, t.1 < pos.length ∧ t.2.1 < pos.length ∧ t.2.2 < pos.length) →
    accumFlat norm pos ts ns cs =
      (fun k => Vec3.add (ns k)
        (vsum (ts.map fun t => Vec3.smulNat (occCount k t) (triNormal norm pos t))),
       fun k => cs k + (ts.map (occCount k)).sum) := by
  induction ts with
  | nil =>
    intro ns cs _
    simp only [accumFlat, List.map_nil, List.sum_nil, Prod.mk.injEq]
    constructor
    · funext k
      exact (Vec3.add_zero' (ns k)).symm
    · funext k
      simp [vsum]
  | cons t ts ih =>
    intro ns cs h
    obtain ⟨i0, i1, i2⟩ := t
    have ht := h (i0, i1, i2) (List.mem_cons_self (i0, i1, i2) ts)
    have hts : ∀ t' ∈ ts, t'.1 < pos.length ∧ t'.2.1 < pos.length
        ∧ t'.2.2 < pos.length :=
      fun t' ht' => h t' (List.mem_cons_of_mem (i0, i1, i2) ht')
    simp only [accumFlat, if_pos ht]
    rw [ih _ _ hts]
    simp only [List.map_cons, vsum_cons, List.sum_cons, Prod.mk.injEq]
    constructor
    · funext k
      rw [addAt_three]
      ext <;> simp [Vec3.add] <;> ring
    · funext k
      rw [incAt_three]
      show cs k + occCount k (i0, i1, i2) + (ts.map (occCount k)).sum
        = cs k + (occCount k (i0, i1, i2) + (ts.map (occCount k)).sum)
      omega

/-- When a vertex's total occurrence count over a triangle list is zero, its
weighted normal sum is the zero vector. -/
theorem vsum_occ_zero (norm : Vec3 → Vec3) (pos : List Vec3) (i : Nat) :
    ∀ ts : List (Nat × Nat × Nat), (ts.map (occCount i)).sum = 0 →
    vsum (ts.map fun t => Vec3.smulNat (occCount i t) (triNormal norm pos t))
      = Vec3.zero
  | [], _ => rfl
  | t :: ts, h => by
    simp only [List.map_cons, List.sum_cons] at h
    have h0 : occCount i t = 0 := by omega
    have htail : ((ts.map (occCount i)).sum) = 0 := by omega
    simp only [List.map_cons, vsum_cons, h0, Vec3.smulNat_zero]
    rw [vsum_occ_zero norm pos i ts htail, Vec3.add_zero']

/-- Claim C8: for every position and triangle-index input whose indices are in
range, `compute_flat_normals` equals the spec's formula: accumulate
`normalize(cross(v1 - v0, v2 - v0))` of each triangle into each of its three
vertices, divide by the vertex's contribution count and renormalize; a vertex
contributing to zero triangles gets the zero vector. The f32 normalizer enters
both sides as the same abstract `norm`. -/
theorem claim8_flat_normals (norm : Vec3 → Vec3) (pos : List Vec3)
    (indices : List Nat) (h : ∀ j ∈ indices, j < pos.length) :
    compute_flat_normals norm pos indices = specFlatNormals norm pos indices := by
  have hts : ∀ t ∈ chunks3 indices, t.1 < pos.length ∧ t.2.1 < pos.length
      ∧ t.2.2 < pos.length := by
    intro t ht
    obtain ⟨h1, h2, h3⟩ := chunks3_mem indices t ht
    exact ⟨h _ h1, h _ h2, h _ h3⟩
  unfold compute_flat_normals specFlatNormals
  rw [accumFlat_spec norm pos (chunks3 indices) _ _ hts]
  refine List.map_congr_left ?_
  intro i _
  simp only [Vec3.zero_add', Nat.zero_add]
  by_cases hc : ((chunks3 indices).map (occCount i)).sum = 0
  · rw [if_neg (by omega), if_pos hc]
    exact vsum_occ_zero norm pos i (chunks3 indices) hc
  · rw [if_pos (by omega), if_neg hc]

/-- Witness for claim C8 at one concrete triangle. -/
theorem claim8_witness :
    compute_flat_normals id [⟨0, 0, 0⟩, ⟨1, 0, 0⟩, ⟨0, 1, 0⟩] [0, 1, 2]
      = specFlatNormals id [⟨0, 0, 0⟩, ⟨1, 0, 0⟩, ⟨0, 1, 0⟩] [0, 1, 2] :=
  claim8_flat_normals id [⟨0, 0, 0⟩, ⟨1, 0, 0⟩, ⟨0, 1, 0⟩] [0, 1, 2] (by decide)

/-- Any element of an in-bounds quad's split is in the triangle index list. -/
theorem mem_triangleIndicesFromFaces (fc : Nat) (fs : List Nat) (i x : Nat)
    (hi : i < fc) (hfit : 4 * i + 3 < fs.length) (hx : x ∈ quadSplit fs i) :
    x ∈ triangleIndicesFromFaces fc fs := by
  rw [triangleIndicesFromFaces]
  rw [List.mem_flatten]
  refine ⟨quadSplit fs i, ?_, hx⟩
  rw [List.mem_filterMap]
  exact ⟨i, List.mem_range.mpr hi, by rw [if_pos hfit]⟩

/-- Claim C10: mesh assembly is total and guarded — with all four readback
values present it always produces a mesh; a vertex position is emitted only
when its three floats fit in the vertex array, a quad contributes triangles
only when its four indices fit in the face array, the normal array always
matches the emitted position count, and the normal accumulation skips any
triangle with an index outside the emitted positions. -/
theorem claim10_assembly_total (norm : Vec3 → Vec3) (mesh_size : Vec3)
    (dims : CpuData.DensityFieldSize) (vc : Nat) (vs : List ℚ) (fc : Nat)
    (fs : List Nat) (pos : List Vec3) (t : Nat × Nat × Nat)
    (ts : List (Nat × Nat × Nat)) (ns : Nat → Vec3) (cs : Nat → Nat)
    (hskip : ¬(t.1 < pos.length ∧ t.2.1 < pos.length ∧ t.2.2 < pos.length)) :
    build_mesh_from_readback norm mesh_size dims ⟨some vc, some vs, some fc, some fs⟩
      = some (assembleMesh norm mesh_size dims vc vs fc fs) ∧
    worldPositionsOf mesh_size dims vc vs
      = ((List.range vc).filter fun i => decide (3 * i + 2 < vs.length)).map
          (posAt mesh_size dims vs) ∧
    triangleIndicesFromFaces fc fs
      = ((List.range fc).filter fun i => decide (4 * i + 3 < fs.length)).flatMap
          (quadSplit fs) ∧
    (assembleMesh norm mesh_size dims vc vs fc fs).normals.length
      = (assembleMesh norm mesh_size dims vc vs fc fs).positions.length ∧
    accumFlat norm pos (t :: ts) ns cs = accumFlat norm pos ts ns cs := by
  refine ⟨rfl, worldPositionsOf_eq mesh_size dims vc vs,
    triangleIndicesFromFaces_eq fc fs, ?_, ?_⟩
  · simp [assembleMesh, compute_flat_normals]
  · obtain ⟨i0, i1, i2⟩ := t
    simp only [accumFlat, if_neg hskip]

/-- Witness for claim C10 at a concrete readback with a short vertex array
and an out-of-bounds triangle. -/
theorem claim10_witness :
    build_mesh_from_readback id ⟨1, 1, 1⟩ ⟨1, 1, 1⟩
        ⟨some 1, some [0, 0, 0], some 0, some []⟩
      = some (assembleMesh id ⟨1, 1, 1⟩ ⟨1, 1, 1⟩ 1 [0, 0, 0] 0 []) ∧
    worldPositionsOf ⟨1, 1, 1⟩ ⟨1, 1, 1⟩ 1 [0, 0, 0]
      = ((List.range 1).filter fun i => decide (3 * i + 2 < [(0 : ℚ), 0, 0].length)).map
          (posAt ⟨1, 1, 1⟩ ⟨1, 1, 1⟩ [0, 0, 0]) ∧
    triangleIndicesFromFaces 0 []
      = ((List.range 0).filter fun i => decide (4 * i + 3 < ([] : List Nat).length)).flatMap
          (quadSplit []) ∧
    (assembleMesh id ⟨1, 1, 1⟩ ⟨1, 1, 1⟩ 1 [0, 0, 0] 0 []).normals.length
      = (assembleMesh id ⟨1, 1, 1⟩ ⟨1, 1, 1⟩ 1 [0, 0, 0] 0 []).positions.length ∧
    accumFlat id [] ((0, 0, 0) :: []) (fun _ => Vec3.zero) (fun _ => 0)
      = accumFlat id [] [] (fun _ => Vec3.zero) (fun _ => 0) :=
  claim10_assembly_total id ⟨1, 1, 1⟩ ⟨1, 1, 1⟩ 1 [0, 0, 0] 0 [] [] (0, 0, 0) []
    (fun _ => Vec3.zero) (fun _ => 0) (by decide)

/-- Claim C4, amended: a face referencing a vertex index at or above the
reported vertex count is not rejected — the mesh is still emitted and the
face's four indices all appear in the triangle index list; only the
flat-normal computation skips triangles whose indices fall outside the
emitted positions. No structural-integrity error exists. -/
theorem claim4_amended (norm : Vec3 → Vec3) (mesh_size : Vec3)
    (dims : CpuData.DensityFieldSize) (vc : Nat) (vs : List ℚ) (fc : Nat)
    (fs : List Nat) (i : Nat) (hi : i < fc) (hfit : 4 * i + 3 < fs.length) :
    build_mesh_from_readback norm mesh_size dims ⟨some vc, some vs, some fc, some fs⟩
      = some (assembleMesh norm mesh_size dims vc vs fc fs) ∧
    fs.getD (4 * i) 0 ∈ (assembleMesh norm mesh_size dims vc vs fc fs).indices ∧
    fs.getD (4 * i + 1) 0 ∈ (assembleMesh norm mesh_size dims vc vs fc fs).indices ∧
    fs.getD (4 * i + 2) 0 ∈ (assembleMesh norm mesh_size dims vc vs fc fs).indices ∧
    fs.getD (4 * i + 3) 0 ∈ (assembleMesh norm mesh_size dims vc vs fc fs).indices := by
  refine ⟨rfl, ?_, ?_, ?_, ?_⟩ <;>
    exact mem_triangleIndicesFromFaces fc fs i _ hi hfit (by simp [quadSplit])

/-- Claim C4 fails on the code: with reported vertex count 1, a face quad
(0, 1, 2, 3) references vertex indices 1, 2 and 3, all at or above the
count, yet a mesh is emitted and the out-of-range index 3 appears in its
triangle index list — assembly is not aborted. -/
theorem claim4_counterexample :
    (build_mesh_from_readback id ⟨1, 1, 1⟩ ⟨1, 1, 1⟩
        ⟨some 1, some [0, 0, 0], some 1, some [0, 1, 2, 3]⟩).isSome = true ∧
    3 ∈ (assembleMesh id ⟨1, 1, 1⟩ ⟨1, 1, 1⟩ 1 [0, 0, 0] 1 [0, 1, 2, 3]).indices ∧
    1 ≤ 3 := by
  refine ⟨by decide, by decide, by decide⟩

/-- Witness for the amended claim C4 at the same concrete input. -/
theorem claim4_witness :
    build_mesh_from_readback id ⟨1, 1, 1⟩ ⟨1, 1, 1⟩
        ⟨some 1, some [0, 0, 0], some 1, some [0, 1, 2, 3]⟩
      = some (assembleMesh id ⟨1, 1, 1⟩ ⟨1, 1, 1⟩ 1 [0, 0, 0] 1 [0, 1, 2, 3]) ∧
    [0, 1, 2, 3].getD 0 0 ∈ (assembleMesh id ⟨1, 1, 1⟩ ⟨1, 1, 1⟩ 1 [0, 0, 0] 1
      [0, 1, 2, 3]).indices ∧
    [0, 1, 2, 3].getD 1 0 ∈ (assembleMesh id ⟨1, 1, 1⟩ ⟨1, 1, 1⟩ 1 [0, 0, 0] 1
      [0, 1, 2, 3]).indices ∧
    [0, 1, 2, 3].getD 2 0 ∈ (assembleMesh id ⟨1, 1, 1⟩ ⟨1, 1, 1⟩ 1 [0, 0, 0] 1
      [0, 1, 2, 3]).indices ∧
    [0, 1, 2, 3].getD 3 0 ∈ (assembleMesh id ⟨1, 1, 1⟩ ⟨1, 1, 1⟩ 1 [0, 0, 0] 1
      [0, 1, 2, 3]).indices :=
  claim4_amended id ⟨1, 1, 1⟩ ⟨1, 1, 1⟩ 1 [0, 0, 0] 1 [0, 1, 2, 3] 0
    (by decide) (by decide)

/-- The exclusive scan entry at position `i` is the carried accumulator plus
the number of valid flags among the first `i` entries. -/
theorem scanExclusiveGo_getD : ∀ (V : List Bool) (acc i : Nat), i < V.length →
    (scanExclusiveGo acc V).getD i 0 = acc + (V.take i).count true
  | [], _, i, h => by simp at h
  | v :: vs, acc, 0, _ => by simp [scanExclusiveGo]
  | v :: vs, acc, i + 1, h => by
    have ih := scanExclusiveGo_getD vs (acc + if v then 1 else 0) i
      (by simpa using h)
    simp only [scanExclusiveGo, List.getD_cons_succ, List.take_succ_cons,
      List.count_cons, ih]
    cases v <;> (simp; try omega)

/-- The count scalar of the compaction stage equals the number of valid flags. -/
theorem compactionCount_eq_count : ∀ V : List Bool,
    compactionCount V = V.count true
  | [] => by simp [compactionCount]
  | v :: vs => by
    have hlt : (v :: vs).length - 1 < (v :: vs).length := by simp
    have h1 := scanExclusiveGo_getD (v :: vs) 0 ((v :: vs).length - 1) hlt
    have hN1 : (v :: vs).length - 1 + 1 = (v :: vs).length := by simp
    have hdrop : (v :: vs).drop ((v :: vs).length - 1)
        = [(v :: vs).getD ((v :: vs).length - 1) false] := by
      rw [List.drop_eq_getElem_cons hlt, List.getD_eq_getElem _ false hlt, hN1,
        List.drop_length]
    have hcnt : (v :: vs).count true
        = (((v :: vs).take ((v :: vs).length - 1)).count true)
          + ([(v :: vs).getD ((v :: vs).length - 1) false].count true) := by
      conv_lhs => rw [← List.take_append_drop ((v :: vs).length - 1) (v :: vs)]
      rw [List.count_append, hdrop]
    simp only [compactionCount, scanExclusive]
    rw [if_neg (by simp), h1, hcnt]
    cases hg : (v :: vs).getD ((v :: vs).length - 1) false <;> simp [hg]

/-- The compaction write pass, started at accumulator `acc` over equal-length
lists, leaves every slot below `acc` untouched and fills the next
`count`-many slots with exactly the valid elements in order. -/
theorem compactWritesGo_spec {α : Type} : ∀ (V : List Bool) (src : List α)
    (acc : Nat) (f : Nat → Option α), V.length = src.length →
    (∀ k, k < acc → compactWritesGo acc V src f k = f k) ∧
    (List.range' acc (V.count true)).map (compactWritesGo acc V src f)
      = (validSubseq V src).map some
  | [], src, acc, f, h => by
    have hsrc : src = [] := List.eq_nil_of_length_eq_zero h.symm
    subst hsrc
    refine ⟨fun k _ => rfl, ?_⟩
    simp [validSubseq, compactWritesGo]
  | v :: vs, [], acc, f, h => by simp at h
  | v :: vs, s :: ss, acc, f, h => by
    have hlen : vs.length = ss.length := by simpa using h
    cases v with
    | false =>
      have ih := compactWritesGo_spec vs ss acc f hlen
      constructor
      · intro k hk
        simpa [compactWritesGo] using ih.1 k hk
      · have hsub : validSubseq (false :: vs) (s :: ss) = validSubseq vs ss := by
          simp [validSubseq]
        have hcount : (false :: vs).count true = vs.count true := by
          simp [List.count_cons]
        rw [hsub, hcount]
        simpa [compactWritesGo] using ih.2
    | true =>
      have ih := compactWritesGo_spec vs ss (acc + 1)
        (fun k => if k = acc then some s else f k) hlen
      have hunfold : compactWritesGo acc (true :: vs) (s :: ss) f
          = compactWritesGo (acc + 1) vs ss
            (fun k => if k = acc then some s else f k) := by
        simp [compactWritesGo]
      constructor
      · intro k hk
        rw [hunfold, ih.1 k (by omega)]
        show (if k = acc then some s else f k) = f k
        rw [if_neg (by omega)]
      · have hsub : validSubseq (true :: vs) (s :: ss)
            = s :: validSubseq vs ss := by simp [validSubseq]
        have hcount : (true :: vs).count true = vs.count true + 1 := by
          simp [List.count_cons]
        rw [hunfold, hsub, hcount, List.range'_succ]
        simp only [List.map_cons]
        congr 1
        · rw [ih.1 acc (by omega)]
          simp
        · exact ih.2

/-- The dense array produced by the compaction writes equals the valid
sub-sequence of the source. -/
theorem compactDense_eq {α : Type} (V : List Bool) (src : List α)
    (h : V.length = src.length) :
    compactDense V src = (validSubseq V src).map some := by
  have hs := compactWritesGo_spec V src 0 (fun _ => none) h
  rw [compactDense, compactionCount_eq_count, List.range_eq_range']
  exact hs.2

/-- Claim C2: the stream-compaction contract. For a validity array and an
equally long source, the index array holds the exclusive prefix sum (entry i
counts the valid flags among positions before i), the count scalar equals the
total number of valid flags, and the dense array written by the compaction
pass equals the valid sub-sequence of the source in original order. -/
theorem claim2_stream_compaction {α : Type} (V : List Bool) (src : List α)
    (h : V.length = src.length) :
    (∀ i, i < V.length → (scanExclusive V).getD i 0 = (V.take i).count true) ∧
    compactionCount V = V.count true ∧
    compactDense V src = (validSubseq V src).map some := by
  refine ⟨?_, compactionCount_eq_count V, compactDense_eq V src h⟩
  intro i hi
  simpa using scanExclusiveGo_getD V 0 i hi

/-- Witness for claim C2 at a concrete validity array and source. -/
theorem claim2_witness :
    (∀ i, i < [true, false, true, true].length →
      (scanExclusive [true, false, true, true]).getD i 0
        = ([true, false, true, true].take i).count true) ∧
    compactionCount [true, false, true, true]
      = [true, false, true, true].count true ∧
    compactDense [true, false, true, true] [(10 : ℚ), 20, 30, 40]
      = (validSubseq [true, false, true, true] [(10 : ℚ), 20, 30, 40]).map some :=
  claim2_stream_compaction [true, false, true, true] [(10 : ℚ), 20, 30, 40]
    (by decide)

/-- A doubly wrapped triple product below the modulus equals the exact product. -/
theorem wrapMul3 (M a b c : Nat) (h : a * b * c < M) :
    a * b % M * c % M = a * b * c := by
  rw [Nat.mod_mul_mod]
  exact Nat.mod_eq_of_lt h

/-- The z-major linear index of an in-range coordinate is below the total
vertex count. -/
theorem indexBound (dx dy dz x y z : Nat) (hx : x < dx) (hy : y < dy)
    (hz : z < dz) : z * dy * dx + y * dx + x < dx * dy * dz := by
  have hcalc : z * dy * dx + y * dx + x + 1 ≤ dx * dy * dz := by
    calc z * dy * dx + y * dx + x + 1
        ≤ z * dy * dx + y * dx + dx := by omega
      _ = z * (dy * dx) + (y + 1) * dx := by ring
      _ ≤ z * (dy * dx) + dy * dx :=
          Nat.add_le_add_left (Nat.mul_le_mul_right dx (by omega)) _
      _ = (z + 1) * (dy * dx) := by ring
      _ ≤ dz * (dy * dx) := Nat.mul_le_mul_right (dy * dx) (by omega)
      _ = dx * dy * dz := by ring
  omega

/-- The wrapped z-major index computation below the modulus equals the exact
z-major index. -/
theorem wrapIndexEq (M dx dy dz x y z : Nat) (hM : dx * dy * dz < M)
    (hx : x < dx) (hy : y < dy) (hz : z < dz) :
    ((z * dy % M * dx % M + y * dx % M) % M + x) % M
      = z * (dy * dx) + y * dx + x := by
  have hb : z * dy * dx + y * dx + x < dx * dy * dz :=
    indexBound dx dy dz x y z hx hy hz
  have hdx : dx ≤ dx * dy * dz := by
    calc dx = dx * 1 * 1 := by ring
      _ ≤ dx * dy * dz := Nat.mul_le_mul (Nat.mul_le_mul_left dx (by omega)) (by omega)
  have hxM : x < M := by omega
  rw [Nat.mod_mul_mod, ← Nat.add_mod]
  conv_lhs => rw [show x = x % M from (Nat.mod_eq_of_lt hxM).symm]
  rw [← Nat.add_mod, Nat.mod_eq_of_lt (by omega : z * dy * dx + y * dx + x < M)]
  ring

/-- Claim C6 (with the overflow proviso): for dimensions whose vertex count
fits in u32, the grid geometry computes `cell_count` as the saturating
product of the decremented dimensions, `density_count` as the product of the
dimensions, and maps in-range coordinates to the z-major linear index
`z * (ny * nx) + y * nx + x`; a zero dimension yields zero counts rather than
an error. -/
theorem claim6_grid_geometry (d : CpuData.DensityFieldSize)
    (hov : d.x * d.y * d.z < M32) :
    CpuData.density_count d = d.x * d.y * d.z ∧
    CpuData.cell_count d = (d.x - 1) * (d.y - 1) * (d.z - 1) ∧
    (∀ x y z, x < d.x → y < d.y → z < d.z →
      CpuData.index d x y z = z * (d.y * d.x) + y * d.x + x) ∧
    ((d.x = 0 ∨ d.y = 0 ∨ d.z = 0) →
      CpuData.density_count d = 0 ∧ CpuData.cell_count d = 0) := by
  have hcell : (d.x - 1) * (d.y - 1) * (d.z - 1) < M32 :=
    lt_of_le_of_lt
      (Nat.mul_le_mul (Nat.mul_le_mul (Nat.sub_le d.x 1) (Nat.sub_le d.y 1))
        (Nat.sub_le d.z 1)) hov
  refine ⟨wrapMul3 M32 d.x d.y d.z hov, wrapMul3 M32 _ _ _ hcell, ?_, ?_⟩
  · intro x y z hx hy hz
    exact wrapIndexEq M32 d.x d.y d.z x y z hov hx hy hz
  · intro h0
    rcases h0 with h0 | h0 | h0 <;>
      simp [CpuData.density_count, CpuData.cell_count, h0]

/-- Witness for claim C6 at concrete dimensions (3, 4, 5). -/
theorem claim6_witness :
    CpuData.density_count ⟨3, 4, 5⟩ = 60 ∧
    CpuData.cell_count ⟨3, 4, 5⟩ = 24 ∧
    CpuData.index ⟨3, 4, 5⟩ 1 2 3 = 43 := by
  obtain ⟨h1, h2, h3, -⟩ := claim6_grid_geometry ⟨3, 4, 5⟩ (by decide)
  refine ⟨by rw [h1]; decide, by rw [h2]; decide, ?_⟩
  rw [h3 1 2 3 (by decide) (by decide) (by decide)]
  decide

/-- Claim C9: on every dimension triple whose u32 arithmetic does not
overflow (the vertex count fits in u32 and coordinates are in range), the
usize-based `DensityFieldSize` of `src/lib.rs` and the u32-based one of
`src/cpu_data.rs` compute equal `density_count`, `index` and `cell_count`. -/
theorem claim9_two_grid_types_agree (d : CpuData.DensityFieldSize)
    (x y z : Nat) (hov : d.x * d.y * d.z < M32) (hx : x < d.x) (hy : y < d.y)
    (hz : z < d.z) :
    LibCrate.density_count (LibCrate.ofCpu d) = CpuData.density_count d ∧
    LibCrate.cell_count (LibCrate.ofCpu d) = CpuData.cell_count d ∧
    LibCrate.index (LibCrate.ofCpu d) x y z = CpuData.index d x y z := by
  have h64 : d.x * d.y * d.z < M64 := lt_trans hov (by norm_num [M32, M64])
  have hcell32 : (d.x - 1) * (d.y - 1) * (d.z - 1) < M32 :=
    lt_of_le_of_lt
      (Nat.mul_le_mul (Nat.mul_le_mul (Nat.sub_le d.x 1) (Nat.sub_le d.y 1))
        (Nat.sub_le d.z 1)) hov
  have hcell64 : (d.x - 1) * (d.y - 1) * (d.z - 1) < M64 :=
    lt_trans hcell32 (by norm_num [M32, M64])
  refine ⟨?_, ?_, ?_⟩
  · show d.x * d.y % M64 * d.z % M64 = CpuData.density_count d
    rw [wrapMul3 M64 d.x d.y d.z h64, CpuData.density_count,
      wrapMul3 M32 d.x d.y d.z hov]
  · show (d.x - 1) * (d.y - 1) % M64 * (d.z - 1) % M64 = CpuData.cell_count d
    rw [wrapMul3 M64 _ _ _ hcell64, CpuData.cell_count,
      wrapMul3 M32 _ _ _ hcell32]
  · show ((z * d.y % M64 * d.x % M64 + y * d.x % M64) % M64 + x) % M64
      = CpuData.index d x y z
    rw [wrapIndexEq M64 d.x d.y d.z x y z h64 hx hy hz, CpuData.index,
      wrapIndexEq M32 d.x d.y d.z x y z hov hx hy hz]

/-- Witness for claim C9 at concrete dimensions (4, 5, 6) and coordinate
(1, 2, 3). -/
theorem claim9_witness :
    LibCrate.density_count (LibCrate.ofCpu ⟨4, 5, 6⟩)
      = CpuData.density_count ⟨4, 5, 6⟩ ∧
    LibCrate.cell_count (LibCrate.ofCpu ⟨4, 5, 6⟩)
      = CpuData.cell_count ⟨4, 5, 6⟩ ∧
    LibCrate.index (LibCrate.ofCpu ⟨4, 5, 6⟩) 1 2 3
      = CpuData.index ⟨4, 5, 6⟩ 1 2 3 :=
  claim9_two_grid_types_agree ⟨4, 5, 6⟩ 1 2 3 (by decide) (by decide)
    (by decide) (by decide)

/-- Claim C6 fails without an overflow proviso: at the u32 dimension triple
(65536, 65536, 1) the vertex count 65536 * 65536 * 1 = 2^32 wraps to 0 in the
u32 arithmetic of `density_count`, so the computed value differs from
`nx * ny * nz`. -/
theorem claim6_counterexample :
    CpuData.density_count ⟨65536, 65536, 1⟩ = 0 ∧
    (65536 * 65536 * 1 : Nat) = 4294967296 ∧
    CpuData.density_count ⟨65536, 65536, 1⟩ ≠ 65536 * 65536 * 1 := by
  refine ⟨by decide, by decide, by decide⟩
